import Mathlib

/-! # Pomerium proxy: configuration validation and the upstream request wrapper

A shallow embedding of `proxy/proxy.go`.

* Go `string` is Lean `String`; `[]byte` is `List Nat`. The library functions
  modelled here test ASCII bytes only and treat all bytes from 0x80 on alike,
  so a character outside ASCII stands for its UTF-8 bytes.
* Go `error` is a message string: a function returning `error` returns
  `Option String` (`none` is `nil`), a function returning `(T, error)` returns
  `Except String T`, or the pair when Go returns a value next to the error.
* A Go `map` is an association list; for `Options.Routes` the list is the
  order in which one `range` statement visits the entries.
* The request is passed and returned explicitly where the Go code mutates it
  through a pointer. The inner `http.Handler` is a function on a world state.
  Calls of the logger are left out.
* The header, cookie and director functions of `net/textproto`, `net/http` and
  `net/http/httputil` are modelled after their Go source.
* Functions of the Go standard library whose exact behaviour depends on the Go
  release (`url.Parse`, `base64.StdEncoding.DecodeString`, the `%q` verb,
  `time.Duration.String`) are fields of `Lib`; every general theorem holds for
  every `Lib`. `stdLib` is a reference instance used for concrete evaluation.
* Constructors of other packages of the repository are fields of `Collab`.
-/

namespace Pomerium

/-! ## Strings -/

/-- Go `strings.Contains(s, sub)` on character lists. -/
def containsChars : List Char → List Char → Bool
  | [], sub => sub.isEmpty
  | c :: cs, sub => sub.isPrefixOf (c :: cs) || containsChars cs sub

/-- Go `strings.Contains`. -/
def stringsContains (s sub : String) : Bool := containsChars s.data sub.data

/-- Go `strings.Join`. -/
def stringsJoin : List String → String → String
  | [], _ => ""
  | [a], _ => a
  | a :: b :: rest, sep => a ++ sep ++ stringsJoin (b :: rest) sep

/-! ## `net/url` data and the library interface -/

/-- Go `url.URL` (the `User` field is a username with an optional password). -/
structure URL where
  Scheme : String := ""
  Opaque : String := ""
  User : Option (String × Option String) := none
  Host : String := ""
  Path : String := ""
  RawPath : String := ""
  ForceQuery : Bool := false
  RawQuery : String := ""
  Fragment : String := ""
  deriving DecidableEq, Repr

/-- The standard-library functions the proxy package calls and whose results it
only inspects through their interface. -/
structure Lib where
  /-- `url.Parse`: the parsed URL, or the message of the returned error. -/
  Parse : String → Except String URL
  /-- `base64.StdEncoding.DecodeString`: the decoded bytes (those decoded before
  the error, when there is one) and the error. -/
  DecodeString : String → List Nat × Option String
  /-- The `%q` verb applied to a string (`strconv.Quote`). -/
  Quote : String → String
  /-- `time.Duration.String` of a duration in nanoseconds. -/
  DurationString : Int → String

/-! ## `proxy.go`: constants, options, validation -/

/-- HeaderJWT is the header key for pomerium proxy's JWT signature. -/
def HeaderJWT : String := "x-pomerium-jwt-assertion"
/-- HeaderUserID is the header key for the user that is passed to the client. -/
def HeaderUserID : String := "x-pomerium-authenticated-user-id"
/-- HeaderEmail is the header key for the email that is passed to the client. -/
def HeaderEmail : String := "x-pomerium-authenticated-user-email"

/-- Options represents the configuration options for the proxy service.
Durations are nanoseconds; `Routes` lists the map entries `(key, value)`. -/
structure Options where
  AuthenticateServiceURL : Option URL := none
  SigningKey : String := ""
  SharedKey : String := ""
  DefaultUpstreamTimeout : Int := 0
  CookieName : String := ""
  CookieSecret : String := ""
  CookieDomain : String := ""
  CookieExpire : Int := 0
  CookieHTTPOnly : Bool := false
  PassAccessToken : Bool := false
  SessionValidTTL : Int := 0
  SessionLifetimeTTL : Int := 0
  GracePeriodTTL : Int := 0
  Routes : List (String × String) := []
  deriving DecidableEq, Repr

/-- Go `time.Second` in nanoseconds. -/
def Second : Int := 1000000000

/-- Go `time.Minute` in nanoseconds. -/
def Minute : Int := 60 * Second

/-- Go `time.Hour` in nanoseconds. -/
def Hour : Int := 60 * Minute

/-- The package variable `defaultOptions`. -/
def defaultOptions : Options :=
  { CookieName := "_pomerium_proxy"
    CookieHTTPOnly := false
    CookieExpire := 168 * Hour
    DefaultUpstreamTimeout := 10 * Second
    SessionLifetimeTTL := 720 * Hour
    SessionValidTTL := 1 * Minute
    GracePeriodTTL := 3 * Hour
    PassAccessToken := false }

/-- The function `urlParse` adds a scheme if none exists: when `uri` does not contain
`"://"` it is replaced by `fmt.Sprintf("https://%s", uri)` before `url.Parse`. -/
def urlParse (L : Lib) (uri : String) : Except String URL :=
  if !stringsContains uri "://" then L.Parse ("https://" ++ uri) else L.Parse uri

/-- The `for to, from := range o.Routes` loop of `Validate`: the first error met
while visiting the entries in order, `none` when the loop completes. The source
names the key `to` and the value `from` (here `to'` and `from'`). -/
def validateRoutes (L : Lib) : List (String × String) → Option String
  | [] => none
  | (to', from') :: rest =>
    match urlParse L to' with
    | .error err => some ("could not parse origin " ++ to' ++ " as url : " ++ L.Quote err)
    | .ok _ =>
      match urlParse L from' with
      | .error err => some ("could not parse destination " ++ to' ++ " as url : " ++ L.Quote err)
      | .ok _ => validateRoutes L rest

/-- The checks of `Validate` after the routes loop. -/
def validateSettings (L : Lib) (o : Options) : Option String :=
  match o.AuthenticateServiceURL with
  | none => some "missing setting: provider-url"
  | some u =>
    if u.Scheme ≠ "https" then some "provider-url must be a valid https url"
    else if o.CookieSecret = "" then some "missing setting: cookie-secret"
    else if o.SharedKey = "" then some "missing setting: client-secret"
    else
      match L.DecodeString o.CookieSecret with
      | (_, some err) => some ("cookie secret is invalid base64: " ++ err)
      | (decodedCookieSecret, none) =>
        if decodedCookieSecret.length ≠ 32 then
          some ("cookie secret expects 32 bytes but got " ++ toString decodedCookieSecret.length)
        else if o.SigningKey.length ≠ 0 then
          match L.DecodeString o.SigningKey with
          | (_, some err) => some ("signing key is invalid base64: " ++ err)
          | (_, none) => none
        else none

/-- The method `Options.Validate` checks that proper configuration settings are set to
create a proper Proxy instance. -/
def Validate (L : Lib) (o : Options) : Option String :=
  if o.Routes.length = 0 then some "missing setting: routes"
  else
    match validateRoutes L o.Routes with
    | some err => some err
    | none => validateSettings L o

/-! ## `net/textproto` and `net/http`: headers -/

/-- The table `isTokenTable` of `net/textproto`: the bytes allowed in a header
field name (RFC 7230 `tchar`): letters, digits and
`! # $ % & ' * + - . ^ _ backquote | ~`. -/
def isTokenChar (c : Char) : Bool :=
  let n := c.toNat
  (48 ≤ n && n ≤ 57) || (65 ≤ n && n ≤ 90) || (97 ≤ n && n ≤ 122) ||
  [33, 35, 36, 37, 38, 39, 42, 43, 45, 46, 94, 95, 96, 124, 126].contains n

/-- The canonicalising loop of `canonicalMIMEHeaderKey`: first letter upper
case and upper case after each dash, every other letter lower case. -/
def canonicalLoop : Bool → List Char → List Char
  | _, [] => []
  | upper, c :: cs =>
    let c' := if upper && c.isLower then c.toUpper
              else if !upper && c.isUpper then c.toLower else c
    c' :: canonicalLoop (c' == '-') cs

/-- Go `textproto.CanonicalMIMEHeaderKey`: a key holding a byte that is not a
valid header field byte is returned unchanged. -/
def CanonicalMIMEHeaderKey (s : String) : String :=
  if s.data.all isTokenChar then String.mk (canonicalLoop true s.data) else s

/-- Go `http.Header`, a `map[string][]string`, as an association list. -/
abbrev Header := List (String × List String)

/-- The map index expression `h[key]`: the value and whether the key is present. -/
def Header.index : Header → String → Option (List String)
  | [], _ => none
  | (k, v) :: rest, key => if k = key then some v else Header.index rest key

/-- The map assignment `h[key] = v`. -/
def Header.assign : Header → String → List String → Header
  | [], key, v => [(key, v)]
  | (k, w) :: rest, key, v =>
    if k = key then (key, v) :: rest else (k, w) :: Header.assign rest key v

/-- Go `Header.Get`: the first value associated with the canonical key, `""`
when there is none. -/
def Header.Get (h : Header) (key : String) : String :=
  match h.index (CanonicalMIMEHeaderKey key) with
  | some (v :: _) => v
  | _ => ""

/-- Go `Header.Set`: the entry of the canonical key becomes the single value. -/
def Header.Set (h : Header) (key value : String) : Header :=
  h.assign (CanonicalMIMEHeaderKey key) [value]

/-- Go `Header.Add`: the value is appended to the values of the canonical key. -/
def Header.Add (h : Header) (key value : String) : Header :=
  h.assign (CanonicalMIMEHeaderKey key)
    ((h.index (CanonicalMIMEHeaderKey key)).getD [] ++ [value])

/-! ## `net/http`: request cookies -/

/-- Go `http.Cookie`, restricted to the two fields that `Request.Cookies` fills
in (every other field of a request cookie is zero, and `Cookie.String` prints
nothing for a zero attribute). -/
structure Cookie where
  Name : String
  Value : String
  deriving DecidableEq, Repr

/-- Go `unicode.IsSpace`. -/
def isSpace (c : Char) : Bool :=
  let n := c.toNat
  (9 ≤ n && n ≤ 13) || n == 32 || n == 0x85 || n == 0xA0 || n == 0x1680 ||
  (0x2000 ≤ n && n ≤ 0x200a) || n == 0x2028 || n == 0x2029 || n == 0x202f ||
  n == 0x205f || n == 0x3000

/-- Go `strings.TrimSpace` on character lists. -/
def trimSpace (s : List Char) : List Char :=
  ((s.dropWhile isSpace).reverse.dropWhile isSpace).reverse

/-- Go `strings.Split(s, sep)` for a one-character separator. -/
def splitOn (sep : Char) : List Char → List (List Char)
  | [] => [[]]
  | c :: cs =>
    if c = sep then [] :: splitOn sep cs
    else
      match splitOn sep cs with
      | [] => [[c]]
      | p :: ps => (c :: p) :: ps

/-- Go `isCookieNameValid`: non-empty and made of token characters. -/
def isCookieNameValid (raw : List Char) : Bool :=
  if raw = [] then false else raw.all isTokenChar

/-- Go `validCookieValueByte`. -/
def validCookieValueByte (b : Char) : Bool :=
  0x20 ≤ b.toNat && b.toNat < 0x7f && b != '"' && b != ';' && b != '\\'

/-- Go `parseCookieValue`: strips the quotes, if present, and rejects a value
holding an invalid byte. -/
def parseCookieValue (raw : List Char) (allowDoubleQuote : Bool) : Option (List Char) :=
  let raw := if allowDoubleQuote && raw.length > 1 && raw.head? == some '"'
                && raw.getLast? == some '"'
             then (raw.drop 1).dropLast else raw
  if raw.all validCookieValueByte then some raw else none

/-- The body of the per-part loop of `readCookies`: the cookie a part
contributes, if any. -/
def readCookiePart (filter : String) (part : List Char) : Option Cookie :=
  let part := trimSpace part
  if part.length = 0 then none
  else
    let j := part.indexOf '='
    let name := if j < part.length then part.take j else part
    let val := if j < part.length then part.drop (j + 1) else []
    if !isCookieNameValid name then none
    else if filter ≠ "" && filter ≠ String.mk name then none
    else
      match parseCookieValue val true with
      | none => none
      | some val => some { Name := String.mk name, Value := String.mk val }

/-- The body of the per-line loop of `readCookies`. -/
def readCookieLine (filter : String) (line : String) : List Cookie :=
  let parts := splitOn ';' (trimSpace line.data)
  if parts.length = 1 ∧ parts.head? = some [] then []
  else parts.filterMap (readCookiePart filter)

/-- Go `readCookies`: parses all `Cookie` values from the header `h`. -/
def readCookies (h : Header) (filter : String) : List Cookie :=
  match h.index "Cookie" with
  | none => []
  | some lines => (lines.map (readCookieLine filter)).flatten

/-- Go `sanitizeCookieName`: newlines and carriage returns become dashes. -/
def sanitizeCookieName (n : List Char) : List Char :=
  n.map (fun c => if c = '\n' ∨ c = '\r' then '-' else c)

/-- Go `sanitizeCookieValue`: invalid bytes are dropped, and a value holding a
space or a comma is put in double quotes. -/
def sanitizeCookieValue (v : List Char) : List Char :=
  let v := v.filter validCookieValueByte
  if v.length = 0 then v
  else if v.contains ' ' || v.contains ',' then '"' :: (v ++ ['"'])
  else v

/-- Go `Cookie.String` for a cookie with no attribute set: `name=value`. -/
def Cookie.String (c : Cookie) : String :=
  if !isCookieNameValid c.Name.data then ""
  else String.mk (sanitizeCookieName c.Name.data ++ '=' :: sanitizeCookieValue c.Value.data)

/-- Go `http.Request`, with the fields the proxy package reads or writes. -/
structure Request where
  Host : String := ""
  URL : URL := {}
  Header : Header := []
  deriving DecidableEq, Repr

/-- Go `Request.Cookies`: the cookies sent with the request. -/
def Request.Cookies (r : Request) : List Cookie := readCookies r.Header ""

/-! ## `proxy.go`: the upstream request wrapper -/

/-- The method `SignJWT(user, email)` of the interface `cryptutil.JWTSigner`:
the signed token or the error. -/
abbrev JWTSigner := String → String → Except String String

/-- UpstreamProxy stores information necessary for proxying the request back to
the upstream. The inner `http.Handler` acts on a world state `σ` (the response
writer and whatever else it touches); a nil `signer` is `none`. -/
structure UpstreamProxy (σ : Type) where
  name : String
  cookieName : String
  handler : σ → Request → σ
  signer : Option JWTSigner

/-- deleteUpstreamCookies deletes the session cookie from the request header
string. -/
def deleteUpstreamCookies (req : Request) (cookieName : String) : Request :=
  let headers := (req.Cookies.filter (fun cookie => cookie.Name ≠ cookieName)).map Cookie.String
  { req with Header := req.Header.Set "Cookie" (stringsJoin headers ";") }

/-- The method `signRequest`: with a signer, the token signed for the two
identity headers is set as `HeaderJWT` unless signing returns an error. -/
def UpstreamProxy.signRequest {σ : Type} (u : UpstreamProxy σ) (req : Request) : Request :=
  match u.signer with
  | some signer =>
    match signer (req.Header.Get HeaderUserID) (req.Header.Get HeaderEmail) with
    | .ok jwt => { req with Header := req.Header.Set HeaderJWT jwt }
    | .error _ => req
  | none => req

/-- ServeHTTP signs the http request and deletes cookie headers before calling
the upstream's ServeHTTP function. -/
def UpstreamProxy.ServeHTTP {σ : Type} (u : UpstreamProxy σ) (w : σ) (r : Request) : σ :=
  let r := deleteUpstreamCookies r u.cookieName
  let r := u.signRequest r
  u.handler w r


/-! ## `net/http/httputil` and `proxy.go`: the reverse-proxy director -/

/-- Go `singleJoiningSlash` of `net/http/httputil`. -/
def singleJoiningSlash (a b : String) : String :=
  let aslash := a.data.getLast? == some '/'
  let bslash := b.data.head? == some '/'
  if aslash && bslash then a ++ String.mk (b.data.drop 1)
  else if !aslash && !bslash then a ++ "/" ++ b
  else a ++ b

/-- The director of Go `httputil.NewSingleHostReverseProxy(target)`: routes the
request URL to the target's scheme, host and base path, merges the queries, and
sets an empty `User-Agent` when the request has none. -/
def singleHostDirector (target : URL) (req : Request) : Request :=
  let targetQuery := target.RawQuery
  let rawQuery :=
    if targetQuery = "" ∨ req.URL.RawQuery = "" then targetQuery ++ req.URL.RawQuery
    else targetQuery ++ "&" ++ req.URL.RawQuery
  let url := { req.URL with
    Scheme := target.Scheme
    Host := target.Host
    Path := singleJoiningSlash target.Path req.URL.Path
    RawQuery := rawQuery }
  let header :=
    match req.Header.index "User-Agent" with
    | some _ => req.Header
    | none => req.Header.Set "User-Agent" ""
  { req with URL := url, Header := header }

/-- Go `httputil.ReverseProxy`: its `Director`; the `Transport` is always the
package variable `defaultUpstreamTransport`. -/
structure ReverseProxy where
  Director : Request → Request

/-- NewReverseProxy creates a reverse proxy to a specified url. It adds an
X-Forwarded-Host header that is the request's host. -/
def NewReverseProxy (to' : URL) : ReverseProxy :=
  let director := singleHostDirector to'
  { Director := fun req =>
      let req := { req with Header := req.Header.Add "X-Forwarded-Host" req.Host }
      let req := director req
      { req with Host := to'.Host } }

/-! ## `proxy.go`: collaborators and construction -/

/-- The collaborators of the proxy package that live in other packages: their
types and constructors, and how a `ReverseProxy` with the default transport
serves a request on the world state `σ`. -/
structure Collab (σ : Type) where
  /-- `cryptutil.Cipher`. -/
  Cipher : Type
  /-- `*sessions.CookieStore`, used as session store and as CSRF store. -/
  CookieStore : Type
  /-- `*authenticator.AuthenticateClient`. -/
  AuthenticateClient : Type
  /-- `*template.Template`. -/
  Template : Type
  /-- `cryptutil.NewCipher(secret)`. -/
  NewCipher : List Nat → Except String Cipher
  /-- `sessions.NewCookieStore` with the cookie name, the secret of the
  miscreant cookie cipher, and the cookie domain, HTTP-only flag and expiry set
  by the option function. -/
  NewCookieStore : String → List Nat → String → Bool → Int → Except String CookieStore
  /-- `authenticator.NewClient(uri, sharedKey, sessionLifetime, sessionValid, gracePeriod)`. -/
  NewClient : Option URL → String → Int → Int → Int → AuthenticateClient
  /-- `templates.New()`. -/
  NewTemplates : Template
  /-- `cryptutil.NewES256Signer(privKey, audience)`. -/
  NewES256Signer : List Nat → String → Except String JWTSigner
  /-- `(*httputil.ReverseProxy).ServeHTTP` with `defaultUpstreamTransport`. -/
  ServeReverseProxy : ReverseProxy → σ → Request → σ

/-- The handler returned by Go `http.TimeoutHandler(h, dt, msg)`: it runs `h`
with the time limit `dt` and answers with the body `msg` when the limit is
exceeded. -/
structure TimeoutHandler (σ : Type) where
  handler : UpstreamProxy σ
  dt : Int
  body : String

/-- NewReverseProxyHandler applies handler specific options to a given route. -/
def NewReverseProxyHandler {σ : Type} (L : Lib) (C : Collab σ) (opts : Options)
    (reverseProxy : ReverseProxy) (from' to' : String) : Except String (TimeoutHandler σ) :=
  let up : UpstreamProxy σ :=
    { name := to'
      handler := C.ServeReverseProxy reverseProxy
      cookieName := opts.CookieName
      signer := none }
  let timeout := opts.DefaultUpstreamTimeout
  let timeoutMsg :=
    to' ++ " failed to respond within the " ++ L.DurationString timeout ++ " timeout period"
  if opts.SigningKey.length ≠ 0 then
    match L.DecodeString opts.SigningKey with
    | (_, some err) => .error err
    | (decodedSigningKey, none) =>
      match C.NewES256Signer decodedSigningKey from' with
      | .error err => .error err
      | .ok signer =>
        .ok { handler := { up with signer := some signer }, dt := timeout, body := timeoutMsg }
  else .ok { handler := up, dt := timeout, body := timeoutMsg }

/-- Proxy stores all the information associated with proxying a request. -/
structure Proxy (σ : Type) (C : Collab σ) where
  PassAccessToken : Bool
  authenticateClient : C.AuthenticateClient
  cipher : C.Cipher
  csrfStore : C.CookieStore
  sessionStore : C.CookieStore
  redirectURL : URL
  templates : C.Template
  mux : List (String × TimeoutHandler σ)

/-- Modelled from the spec: the method `Proxy.Handle(host, handler)`, which is
declared outside `proxy.go`, registers the handler under the host key of the
dispatch table, whose keys are unique (`p.mux[host] = handler`). -/
def Proxy.Handle {σ : Type} {C : Collab σ} (p : Proxy σ C) (host : String)
    (handler : TimeoutHandler σ) : Proxy σ C :=
  { p with mux := (p.mux.filter (fun e => e.1 ≠ host)) ++ [(host, handler)] }

/-- A constructor call made by `New`, in the order of the calls. -/
inductive Call where
  | NewCipher (secret : List Nat)
  | NewCookieStore (cookieName : String)
  | NewClient
  | NewReverseProxy (to' : URL)
  | NewReverseProxyHandler (from' to' : String)
  deriving DecidableEq, Repr

/-- How a call of a Go function ends: with a value, with a non-nil error, or
with a run-time panic (a nil pointer dereference). -/
inductive Outcome (α : Type) where
  | ok (value : α)
  | error (err : String)
  | panicked

/-- The `for from, to := range opts.Routes` loop of `New`, with the constructor
calls made so far. The errors of `urlParse` are discarded, so that a failed
parse leaves a nil URL: `NewReverseProxy(nil)` and `fromURL.Host` on a nil
`fromURL` panic. -/
def newRoutes {σ : Type} (L : Lib) (C : Collab σ) (opts : Options) :
    List (String × String) → Proxy σ C → List Call → List Call × Outcome (Proxy σ C)
  | [], p, calls => (calls, .ok p)
  | (from', to') :: rest, p, calls =>
    match urlParse L to' with
    | .error _ => (calls, .panicked)
    | .ok toURL =>
      let reverseProxy := NewReverseProxy toURL
      let calls := calls ++ [Call.NewReverseProxy toURL]
      match urlParse L from' with
      | .error _ => (calls, .panicked)
      | .ok fromURL =>
        let calls := calls ++ [Call.NewReverseProxyHandler fromURL.Host toURL.Host]
        match NewReverseProxyHandler L C opts reverseProxy fromURL.Host toURL.Host with
        | .error err => (calls, .error err)
        | .ok handler => newRoutes L C opts rest (p.Handle fromURL.Host handler) calls

/-- New takes a Proxy service from options and a validation function. Function
returns an error if options fail to validate. The first component lists the
constructor calls made. -/
def New {σ : Type} (L : Lib) (C : Collab σ) (opts : Option Options) :
    List Call × Outcome (Proxy σ C) :=
  match opts with
  | none => ([], .error "options cannot be nil")
  | some opts =>
    match Validate L opts with
    | some err => ([], .error err)
    | none =>
      let decodedSecret := (L.DecodeString opts.CookieSecret).1
      match C.NewCipher decodedSecret with
      | .error err => ([Call.NewCipher decodedSecret], .error ("cookie-secret error: " ++ err))
      | .ok cipher =>
        match C.NewCookieStore opts.CookieName decodedSecret opts.CookieDomain
            opts.CookieHTTPOnly opts.CookieExpire with
        | .error err =>
          ([Call.NewCipher decodedSecret, Call.NewCookieStore opts.CookieName], .error err)
        | .ok cookieStore =>
          let authClient := C.NewClient opts.AuthenticateServiceURL opts.SharedKey
            opts.SessionLifetimeTTL opts.SessionValidTTL opts.GracePeriodTTL
          let p : Proxy σ C :=
            { mux := []
              cipher := cipher
              csrfStore := cookieStore
              sessionStore := cookieStore
              authenticateClient := authClient
              redirectURL := { Path := "/.pomerium/callback" }
              templates := C.NewTemplates
              PassAccessToken := opts.PassAccessToken }
          newRoutes L C opts opts.Routes p
            [Call.NewCipher decodedSecret, Call.NewCookieStore opts.CookieName, Call.NewClient]

/-! ## A reference instance of the library interface

`stdLib` follows the Go standard library (release 1.14 and later) and is used
where a statement is evaluated on concrete data. `stdDecodeString` follows
`base64.StdEncoding.DecodeString` on every input. `stdQuote` and `stdParse`
follow `strconv.Quote` and `url.Parse` on the inputs described at each of them.
-/

/-- The decode map of `base64.StdEncoding`. -/
def b64Value (c : Char) : Option Nat :=
  if c.isUpper then some (c.toNat - 65)
  else if c.isLower then some (c.toNat - 97 + 26)
  else if c.isDigit then some (c.toNat - 48 + 52)
  else if c = '+' then some 62
  else if c = '/' then some 63
  else none

/-- The message of Go `base64.CorruptInputError(n)`. -/
def corruptInputError (n : Nat) : String :=
  "illegal base64 data at input byte " ++ toString n

/-- The first `dlen - 1` bytes of the 24-bit value of up to four sextets. -/
def quantumBytes (dbuf : List Nat) (dlen : Nat) : List Nat :=
  let val := dbuf.getD 0 0 * 2 ^ 18 + dbuf.getD 1 0 * 2 ^ 12 + dbuf.getD 2 0 * 2 ^ 6 + dbuf.getD 3 0
  [val / 2 ^ 16 % 256, val / 2 ^ 8 % 256, val % 256].take (dlen - 1)

/-- The `\n` and `\r` bytes that the decoder skips. -/
def isNewline (c : Char) : Bool := c = '\n' || c = '\r'

/-- The end of the padding branch of `decodeQuantum`: newlines are skipped,
anything after them is trailing garbage, and the quantum is converted. -/
def decodeTrailer (rest : List Char) (si : Nat) (dbuf out : List Nat) : List Nat × Option String :=
  let rest' := rest.dropWhile isNewline
  let si := si + (rest.length - rest'.length)
  (out ++ quantumBytes dbuf dbuf.length,
    if rest' = [] then none else some (corruptInputError si))

/-- The padding branch of `decodeQuantum`: `rest` follows a first `=` found at
offset `si` after `dbuf.length` sextets of the quantum. -/
def decodePadding (rest : List Char) (si : Nat) (dbuf out : List Nat) : List Nat × Option String :=
  let j := dbuf.length
  if j = 0 ∨ j = 1 then (out, some (corruptInputError si))
  else if j = 2 then
    let rest' := rest.dropWhile isNewline
    let si := si + 1 + (rest.length - rest'.length)
    match rest' with
    | [] => (out, some (corruptInputError si))
    | c :: rest'' =>
      if c ≠ '=' then (out, some (corruptInputError (si - 1)))
      else decodeTrailer rest'' (si + 1) dbuf out
  else decodeTrailer rest (si + 1) dbuf out

/-- The loop of `Encoding.Decode` over `decodeQuantum` for `StdEncoding`: `si`
is the offset of the next input byte, `dbuf` the sextets read in the current
quantum, `out` the bytes decoded so far. -/
def decodeFrom : List Char → Nat → List Nat → List Nat → List Nat × Option String
  | [], si, dbuf, out =>
    if dbuf.length = 0 then (out, none)
    else (out, some (corruptInputError (si - dbuf.length)))
  | c :: rest, si, dbuf, out =>
    match b64Value c with
    | some v =>
      if dbuf.length = 3 then decodeFrom rest (si + 1) [] (out ++ quantumBytes (dbuf ++ [v]) 4)
      else decodeFrom rest (si + 1) (dbuf ++ [v]) out
    | none =>
      if isNewline c then decodeFrom rest (si + 1) dbuf out
      else if c ≠ '=' then (out, some (corruptInputError si))
      else decodePadding rest si dbuf out

/-- Go `base64.StdEncoding.DecodeString`. -/
def stdDecodeString (s : String) : List Nat × Option String :=
  decodeFrom s.data 0 [] []

/-- The lower-case hexadecimal digit of a number below sixteen. -/
def hexDigit (n : Nat) : Char := (Nat.toDigits 16 n).headD '0'

/-- The escape that `strconv.Quote` writes for one character. -/
def quoteChar (c : Char) : List Char :=
  if c = '"' ∨ c = '\\' then ['\\', c]
  else if c = Char.ofNat 7 then ['\\', 'a']
  else if c = Char.ofNat 8 then ['\\', 'b']
  else if c = Char.ofNat 12 then ['\\', 'f']
  else if c = '\n' then ['\\', 'n']
  else if c = '\r' then ['\\', 'r']
  else if c = '\t' then ['\\', 't']
  else if c = Char.ofNat 11 then ['\\', 'v']
  else if c.toNat < 32 ∨ c.toNat = 127 then
    ['\\', 'x', hexDigit (c.toNat / 16), hexDigit (c.toNat % 16)]
  else [c]

/-- Go `strconv.Quote` on a string whose characters outside ASCII are
printable: a double-quoted Go string literal with escapes for the quote, the
backslash and the control characters. -/
def stdQuote (s : String) : String :=
  String.mk ('"' :: ((s.data.map quoteChar).flatten ++ ['"']))

/-- Go `getscheme` of `net/url`: the scheme before the first colon, when the
text before it is a letter followed by letters, digits, `+`, `-` and `.`. -/
def getscheme : List Char → Nat → List Char → Except String (List Char × List Char)
  | rawurl, _, [] => .ok ([], rawurl)
  | rawurl, i, c :: cs =>
    if c.isAlpha then getscheme rawurl (i + 1) cs
    else if c.isDigit ∨ c = '+' ∨ c = '-' ∨ c = '.' then
      if i = 0 then .ok ([], rawurl) else getscheme rawurl (i + 1) cs
    else if c = ':' then
      if i = 0 then .error "missing protocol scheme" else .ok (rawurl.take i, cs)
    else .ok ([], rawurl)

/-- Go `split(s, sep, true)` of `net/url` for a one-character separator: the
text before the first separator and the text after it. -/
def cutAt (sep : Char) (s : List Char) : List Char × List Char :=
  (s.takeWhile (· ≠ sep), (s.dropWhile (· ≠ sep)).drop 1)

/-- Go `validOptionalPort`: empty, or a colon followed by digits. -/
def validOptionalPort (port : List Char) : Bool :=
  match port with
  | [] => true
  | c :: ds => c = ':' && ds.all Char.isDigit

/-- Go `shouldEscape(c, encodeHost)` for an ASCII byte. -/
def shouldEscapeHost (c : Char) : Bool :=
  !(c.isAlphanum || "!$&()*+,;=:[]<>\"-_.~".data.contains c || c.toNat = 39)

/-- Go `shouldEscape(c, encodePath)`. -/
def shouldEscapePath (c : Char) : Bool :=
  !(c.isAlphanum || "-_.~$&+,/:;=@".data.contains c)

/-- The text after the last colon of a host, the colon included; empty when
there is no colon. -/
def colonPort (host : List Char) : List Char :=
  if host.contains ':' then
    ':' :: (host.reverse.takeWhile (· ≠ ':')).reverse
  else []

/-- Go `url.Parse` without the `parse` error wrapper, on a URL without
fragment. Percent escapes, user information and bracketed IP literals are
outside the reference instance and are reported as errors. -/
def stdParseNoFragment (u : List Char) : Except String URL :=
  if u.any (fun c => c.toNat < 32 ∨ c.toNat = 127) then
    .error "net/url: invalid control character in URL"
  else if u.contains '%' ∨ u.contains '@' ∨ u.contains '[' then
    .error "outside the reference instance"
  else if u = ['*'] then .ok { Path := "*" }
  else
    match getscheme u 0 u with
    | .error e => .error e
    | .ok (scheme, rest) =>
      let scheme := scheme.map Char.toLower
      let forceQuery : Bool := rest.getLast? = some '?' ∧ rest.count '?' = 1
      let query := if forceQuery then [] else (cutAt '?' rest).2
      let rest := if forceQuery then rest.dropLast else (cutAt '?' rest).1
      if rest.head? ≠ some '/' ∧ scheme ≠ [] then
        .ok { Scheme := String.mk scheme, Opaque := String.mk rest, ForceQuery := forceQuery,
              RawQuery := String.mk query }
      else if rest.head? ≠ some '/' ∧ (rest.takeWhile (· ≠ '/')).contains ':' then
        .error "first path segment in URL cannot contain colon"
      else
        let hasAuthority : Bool :=
          ['/', '/'].isPrefixOf rest ∧ (scheme ≠ [] ∨ ¬ ['/', '/', '/'].isPrefixOf rest)
        let host := if hasAuthority then (rest.drop 2).takeWhile (· ≠ '/') else []
        let path := if hasAuthority then (rest.drop 2).dropWhile (· ≠ '/') else rest
        if !validOptionalPort (colonPort host) then
          .error ("invalid port " ++ stdQuote (String.mk (colonPort host)) ++ " after host")
        else
          match host.find? (fun c => c.toNat < 128 ∧ shouldEscapeHost c) with
          | some c => .error ("invalid character " ++ stdQuote (String.mk [c]) ++ " in host name")
          | none =>
            .ok { Scheme := String.mk scheme, Host := String.mk host, Path := String.mk path,
                  RawPath := if path.any shouldEscapePath then String.mk path else "",
                  ForceQuery := forceQuery, RawQuery := String.mk query }

/-- Go `url.Parse`: the fragment is cut off at the first `#`, the rest is
parsed, and an error is wrapped as `parse "<url>": <error>`. A fragment with a
percent escape is outside the reference instance and is reported as an error. -/
def stdParse (rawurl : String) : Except String URL :=
  let u := (cutAt '#' rawurl.data).1
  let frag := (cutAt '#' rawurl.data).2
  match stdParseNoFragment u with
  | .error e => .error ("parse " ++ stdQuote (String.mk u) ++ ": " ++ e)
  | .ok url =>
    if frag.contains '%' then
      .error ("parse " ++ stdQuote rawurl ++ ": outside the reference instance")
    else .ok { url with Fragment := String.mk frag }

/-- The digits of `v / 10 ^ prec` after the decimal point, without trailing
zeros and with the point when there is a digit (Go `fmtFrac`). -/
def fmtFrac (v : Nat) (prec : Nat) : String :=
  let digits := (Nat.toDigits 10 (v % 10 ^ prec))
  let padded := List.replicate (prec - digits.length) '0' ++ digits
  let kept := (padded.reverse.dropWhile (· = '0')).reverse
  if kept = [] then "" else String.mk ('.' :: kept)

/-- Go `time.Duration.String`. -/
def stdDurationString (d : Int) : String :=
  let u := d.natAbs
  let neg := if d < 0 then "-" else ""
  if u = 0 then "0s"
  else if u < 1000 then neg ++ toString u ++ "ns"
  else if u < 1000000 then neg ++ toString (u / 1000) ++ fmtFrac u 3 ++ "µs"
  else if u < 1000000000 then neg ++ toString (u / 1000000) ++ fmtFrac u 6 ++ "ms"
  else
    let secs := u / 1000000000
    let s := toString (secs % 60) ++ fmtFrac u 9 ++ "s"
    let mins := secs / 60
    if mins = 0 then neg ++ s
    else
      let hours := mins / 60
      if hours = 0 then neg ++ toString (mins % 60) ++ "m" ++ s
      else neg ++ toString hours ++ "h" ++ toString (mins % 60) ++ "m" ++ s

/-- The reference instance of the library interface. -/
def stdLib : Lib :=
  { Parse := stdParse
    DecodeString := stdDecodeString
    Quote := stdQuote
    DurationString := stdDurationString }

/-! ## Statement-level definitions and concrete data -/

/-- The constraints of `Validate`, each stated on its own with the error it
reports, in the order in which `Validate` tests them. -/
def validateChecks (L : Lib) (o : Options) : List (Option String) :=
  [ if o.Routes = [] then some "missing setting: routes" else none,
    validateRoutes L o.Routes,
    if o.AuthenticateServiceURL = none then some "missing setting: provider-url" else none,
    (match o.AuthenticateServiceURL with
      | some u => if u.Scheme ≠ "https" then some "provider-url must be a valid https url" else none
      | none => none),
    if o.CookieSecret = "" then some "missing setting: cookie-secret" else none,
    if o.SharedKey = "" then some "missing setting: client-secret" else none,
    (match L.DecodeString o.CookieSecret with
      | (_, some err) => some ("cookie secret is invalid base64: " ++ err)
      | (_, none) => none),
    (match L.DecodeString o.CookieSecret with
      | (decoded, none) =>
        if decoded.length ≠ 32 then
          some ("cookie secret expects 32 bytes but got " ++ toString decoded.length)
        else none
      | (_, some _) => none),
    if o.SigningKey = "" then none
    else
      (match L.DecodeString o.SigningKey with
        | (_, some err) => some ("signing key is invalid base64: " ++ err)
        | (_, none) => none) ]

/-- The first failure in a list of checks. -/
def firstFailure : List (Option String) → Option String
  | [] => none
  | some err :: _ => some err
  | none :: rest => firstFailure rest

/-- A configuration that validates: one route, an https authenticate service, a
cookie secret that decodes to the 32 bytes 0, 1, ..., 31, and a shared key. -/
def sampleOptions : Options :=
  { defaultOptions with
    AuthenticateServiceURL := some { Scheme := "https", Host := "auth.example.com" }
    SharedKey := "c2hhcmVkLXNlY3JldA=="
    CookieSecret := "AAECAwQFBgcICQoLDA0ODxAREhMUFRYXGBkaGxwdHh8="
    Routes := [("a.example.com", "b.internal:8080")] }

/-- A signer whose `SignJWT` succeeds on every pair of strings. -/
def sampleSigner : JWTSigner :=
  fun user email => .ok ("jwt(" ++ user ++ "," ++ email ++ ")")

/-- A signer whose `SignJWT` returns an error on every pair of strings. -/
def failingSigner : JWTSigner := fun _ _ => .error "signing failed"

/-- Collaborators for concrete evaluation: the world state is the list of the
requests handed to the reverse proxy, every constructor succeeds. -/
def recordingCollab : Collab (List Request) :=
  { Cipher := List Nat
    CookieStore := String
    AuthenticateClient := Unit
    Template := Unit
    NewCipher := fun secret => .ok secret
    NewCookieStore := fun cookieName _ _ _ _ => .ok cookieName
    NewClient := fun _ _ _ _ _ => ()
    NewTemplates := ()
    NewES256Signer := fun _ _ => .ok sampleSigner
    ServeReverseProxy := fun _ log r => log ++ [r] }

/-- An upstream proxy whose inner handler records the requests it is called
with. -/
def recordingUpstream (signer : Option JWTSigner) : UpstreamProxy (List Request) :=
  { name := "b.internal:8080"
    cookieName := "_pomerium_proxy"
    handler := fun log r => log ++ [r]
    signer := signer }

/-- A cookie as `readCookies` produces them: a valid name and a value made of
valid cookie value bytes. -/
def Cookie.WellFormed (c : Cookie) : Prop :=
  isCookieNameValid c.Name.data = true ∧ c.Value.data.all validCookieValueByte = true

/-! ## Lemmas on strings and on the routes loop -/

theorem containsChars_iff (s sub : List Char) : containsChars s sub = true ↔ sub <:+: s := by
  induction s with
  | nil => cases sub <;> simp [containsChars]
  | cons c cs ih =>
    simp only [containsChars, Bool.or_eq_true, ih, List.infix_cons_iff,
      List.isPrefixOf_iff_prefix]

theorem stringsContains_iff (s sub : String) :
    stringsContains s sub = true ↔ sub.data <:+: s.data :=
  containsChars_iff s.data sub.data

theorem infix_append_middle (a k b : String) : k.data <:+: (a ++ k ++ b).data :=
  ⟨a.data, b.data, by simp [String.data_append]⟩

theorem validateRoutes_eq_none (L : Lib) (routes : List (String × String)) :
    validateRoutes L routes = none ↔
      ∀ e ∈ routes, (∃ a, urlParse L e.1 = .ok a) ∧ (∃ b, urlParse L e.2 = .ok b) := by
  induction routes with
  | nil => simp [validateRoutes]
  | cons e rest ih =>
    obtain ⟨k, v⟩ := e
    simp only [validateRoutes, List.mem_cons, forall_eq_or_imp]
    cases hk : urlParse L k with
    | error err => simp
    | ok a =>
      cases hv : urlParse L v with
      | error err => simp
      | ok b => simp [ih]

theorem Validate_of_routes (L : Lib) (o : Options) (hroutes : o.Routes ≠ [])
    (hparse : validateRoutes L o.Routes = none) : Validate L o = validateSettings L o := by
  have : o.Routes.length ≠ 0 := by simpa using hroutes
  simp [Validate, this, hparse]

/-! ## Configuration validation -/

/-- C5: for every configuration whose route map is empty, whatever the other
fields hold, `Validate` returns the error "missing setting: routes", and `New`
returns that error, with no proxy and without any constructor call. -/
theorem New_empty_routes {σ : Type} (L : Lib) (C : Collab σ) (o : Options) :
    Validate L { o with Routes := [] } = some "missing setting: routes" ∧
    New L C (some { o with Routes := [] }) = ([], Outcome.error "missing setting: routes") := by
  have h : Validate L { o with Routes := [] } = some "missing setting: routes" := by
    simp [Validate]
  exact ⟨h, by simp [New, h]⟩

/-- C6 (amended): for every configuration that satisfies the other validation
constraints and whose cookie secret is non-empty and valid base64, `Validate`
returns nil if and only if the decoded secret has exactly 32 bytes, and for any
other decoded length `n` it returns "cookie secret expects 32 bytes but got n". -/
theorem Validate_cookie_secret_length (L : Lib) (o : Options) (u : URL) (decoded : List Nat)
    (hroutes : o.Routes ≠ [])
    (hparse : ∀ e ∈ o.Routes, (∃ a, urlParse L e.1 = .ok a) ∧ (∃ b, urlParse L e.2 = .ok b))
    (hurl : o.AuthenticateServiceURL = some u) (hhttps : u.Scheme = "https")
    (hshared : o.SharedKey ≠ "")
    (hsigning : o.SigningKey = "" ∨ (L.DecodeString o.SigningKey).2 = none)
    (hpresent : o.CookieSecret ≠ "")
    (hdecoded : L.DecodeString o.CookieSecret = (decoded, none)) :
    (Validate L o = none ↔ decoded.length = 32) ∧
    (decoded.length ≠ 32 →
      Validate L o = some ("cookie secret expects 32 bytes but got " ++ toString decoded.length)) := by
  rw [Validate_of_routes L o hroutes ((validateRoutes_eq_none L o.Routes).2 hparse)]
  simp only [validateSettings, hurl, hhttps, hshared, hpresent, hdecoded, ne_eq,
    not_true_eq_false, if_false]
  by_cases hlen : decoded.length = 32
  · simp only [hlen, not_true_eq_false, if_false, iff_true, false_implies, and_true]
    rcases hsigning with h | h
    · simp [h]
    · split
      · cases hd : L.DecodeString o.SigningKey with
        | mk bs err =>
          rw [hd] at h
          simp only at h
          subst h
          rfl
      · rfl
  · simp [hlen]

/-- C6, witness: the sample configuration, whose cookie secret decodes to
32 bytes, validates. -/
theorem Validate_cookie_secret_length_witness :
    (Validate stdLib sampleOptions = none ↔ (List.range 32).length = 32) ∧
    ((List.range 32).length ≠ 32 →
      Validate stdLib sampleOptions =
        some ("cookie secret expects 32 bytes but got " ++ toString (List.range 32).length)) :=
  Validate_cookie_secret_length stdLib sampleOptions
    { Scheme := "https", Host := "auth.example.com" } (List.range 32)
    (by decide)
    (by
      intro e he
      have : e = ("a.example.com", "b.internal:8080") := by simpa [sampleOptions] using he
      subst this
      exact ⟨⟨_, rfl⟩, ⟨_, rfl⟩⟩)
    rfl rfl (by decide) (Or.inl rfl) (by decide) (by decide)

/-- C6, counterexample: the empty cookie secret is valid base64 and decodes to
0 bytes, every other constraint holds, and `Validate` reports the missing
setting, not the length error for 0 bytes. -/
theorem Validate_empty_cookie_secret :
    stdLib.DecodeString "" = ([], none) ∧
    validateRoutes stdLib sampleOptions.Routes = none ∧
    sampleOptions.SharedKey ≠ "" ∧ sampleOptions.SigningKey = "" ∧
    Validate stdLib { sampleOptions with CookieSecret := "" } =
      some "missing setting: cookie-secret" ∧
    Validate stdLib { sampleOptions with CookieSecret := "" } ≠
      some ("cookie secret expects 32 bytes but got " ++ toString ([] : List Nat).length) := by
  refine ⟨rfl, rfl, by decide, rfl, ?_, ?_⟩ <;> decide

/-- C7 (amended): `Validate` reports the first failing constraint in the order
routes non-empty, routes parse, authenticate URL present, authenticate URL
https, cookie secret present, shared key present, cookie secret base64, cookie
secret 32 bytes, signing key base64. In particular, when the checks on the
routes and on the authenticate URL pass, the cookie secret is non-empty but is
invalid base64 or does not decode to 32 bytes, and the shared key is empty, the
returned error is the missing shared key. -/
theorem Validate_first_failure :
    (∀ (L : Lib) (o : Options), Validate L o = firstFailure (validateChecks L o)) ∧
    (∀ (L : Lib) (o : Options) (u : URL),
      o.Routes ≠ [] →
      (∀ e ∈ o.Routes, (∃ a, urlParse L e.1 = .ok a) ∧ (∃ b, urlParse L e.2 = .ok b)) →
      o.AuthenticateServiceURL = some u → u.Scheme = "https" →
      o.CookieSecret ≠ "" →
      ((L.DecodeString o.CookieSecret).2 ≠ none ∨ (L.DecodeString o.CookieSecret).1.length ≠ 32) →
      o.SharedKey = "" →
      Validate L o = some "missing setting: client-secret") := by
  constructor
  · intro L o
    by_cases hroutes : o.Routes = []
    · simp [Validate, validateChecks, firstFailure, hroutes]
    · have hlen : o.Routes.length ≠ 0 := by simpa using hroutes
      simp only [Validate, hlen, if_false, validateChecks, hroutes]
      cases hr : validateRoutes L o.Routes with
      | some err => simp [firstFailure]
      | none =>
        simp only [firstFailure, validateSettings]
        cases hu : o.AuthenticateServiceURL with
        | none => simp [firstFailure]
        | some u =>
          by_cases hs : u.Scheme = "https"
          · by_cases hc : o.CookieSecret = ""
            · simp [firstFailure, hs, hc]
            · by_cases hk : o.SharedKey = ""
              · simp [firstFailure, hs, hc, hk]
              · cases hd : L.DecodeString o.CookieSecret with
                | mk decoded err =>
                  cases err with
                  | some err => simp [firstFailure, hs, hc, hk]
                  | none =>
                    by_cases hl : decoded.length = 32
                    · by_cases hg : o.SigningKey = ""
                      · simp [firstFailure, hs, hc, hk, hl, hg]
                      · have hg' : o.SigningKey.length ≠ 0 := by
                          intro h0
                          exact hg (String.ext (List.length_eq_zero.mp h0))
                        cases hd2 : L.DecodeString o.SigningKey with
                        | mk d2 err2 =>
                          cases err2 <;> simp [firstFailure, hs, hc, hk, hl, hg, hg']
                    · simp [firstFailure, hs, hc, hk, hl]
          · simp [firstFailure, hs]
  · intro L o u hroutes hparse hurl hhttps hpresent _ hshared
    rw [Validate_of_routes L o hroutes ((validateRoutes_eq_none L o.Routes).2 hparse)]
    simp [validateSettings, hurl, hhttps, hpresent, hshared]

/-- C7, witness: the sample configuration with a cookie secret that is not
base64 and without shared key. -/
theorem Validate_first_failure_witness :
    Validate stdLib { sampleOptions with CookieSecret := "not base64!", SharedKey := "" } =
      some "missing setting: client-secret" :=
  Validate_first_failure.2 stdLib
    { sampleOptions with CookieSecret := "not base64!", SharedKey := "" }
    { Scheme := "https", Host := "auth.example.com" }
    (by decide)
    (by
      intro e he
      have : e = ("a.example.com", "b.internal:8080") := by simpa [sampleOptions] using he
      subst this
      exact ⟨⟨_, rfl⟩, ⟨_, rfl⟩⟩)
    rfl rfl (by decide) (Or.inl (by decide)) rfl

/-- C7, counterexample: routes and authenticate URL are valid, the cookie
secret is non-empty and not valid base64, the shared key is empty; `Validate`
reports the missing shared key and not a cookie-secret error. -/
theorem Validate_shared_key_before_decoding :
    validateRoutes stdLib sampleOptions.Routes = none ∧
    sampleOptions.AuthenticateServiceURL = some { Scheme := "https", Host := "auth.example.com" } ∧
    stdLib.DecodeString "not base64!" = ([], some "illegal base64 data at input byte 3") ∧
    Validate stdLib { sampleOptions with CookieSecret := "not base64!", SharedKey := "" } =
      some "missing setting: client-secret" ∧
    Validate stdLib { sampleOptions with CookieSecret := "not base64!", SharedKey := "" } ≠
      some "cookie secret is invalid base64: illegal base64 data at input byte 3" := by
  refine ⟨rfl, rfl, ?_, ?_, ?_⟩ <;> decide

/-- C8: evaluation at the failing input. For a single route whose origin `k`
does not parse, the error of `Validate` contains `k`. For a single route whose
origin `k` parses and whose destination `v` does not, the error is made of `k`
and of the quoted parse error, and `v` is not printed: with the route
`a.example.com -> ://b.internal#x` the error names the origin `a.example.com`
where the claim expects the offending destination, which does not occur in it. -/
theorem Validate_destination_error_names_origin :
    (∀ (L : Lib) (o : Options) (k v e : String), urlParse L k = .error e →
      ∃ msg, Validate L { o with Routes := [(k, v)] } = some msg ∧ k.data <:+: msg.data) ∧
    (∀ (L : Lib) (o : Options) (k v e : String) (a : URL),
      urlParse L k = .ok a → urlParse L v = .error e →
      Validate L { o with Routes := [(k, v)] } =
        some ("could not parse destination " ++ k ++ " as url : " ++ L.Quote e)) ∧
    urlParse stdLib "a.example.com" = .ok { Scheme := "https", Host := "a.example.com" } ∧
    urlParse stdLib "://b.internal#x" =
      .error "parse \"://b.internal\": missing protocol scheme" ∧
    Validate stdLib { sampleOptions with Routes := [("a.example.com", "://b.internal#x")] } =
      some ("could not parse destination a.example.com as url : " ++
        "\"parse \\\"://b.internal\\\": missing protocol scheme\"") ∧
    stringsContains
      ("could not parse destination a.example.com as url : " ++
        "\"parse \\\"://b.internal\\\": missing protocol scheme\"")
      "://b.internal#x" = false ∧
    stringsContains
      ("could not parse destination a.example.com as url : " ++
        "\"parse \\\"://b.internal\\\": missing protocol scheme\"")
      "a.example.com" = true := by
  refine ⟨?_, ?_, rfl, rfl, ?_, ?_, ?_⟩
  · intro L o k v e hk
    refine ⟨_, ?_, infix_append_middle "could not parse origin " k (" as url : " ++ L.Quote e)⟩
    simp [Validate, validateRoutes, hk, String.append_assoc]
  · intro L o k v e a hk hv
    simp [Validate, validateRoutes, hk, hv]
  · decide
  · decide
  · decide

/-- C9: for every string `s` that does not contain "://", `urlParse s` is what
`url.Parse("https://" + s)` returns, and for every `s` that contains "://" it is
what `url.Parse(s)` returns; so "svc.example.com" parses as
"https://svc.example.com", with scheme "https" and host "svc.example.com". -/
theorem urlParse_default_scheme (L : Lib) (s : String) :
    urlParse L s = (if "://".data <:+: s.data then L.Parse s else L.Parse ("https://" ++ s)) ∧
    urlParse L "svc.example.com" = urlParse L "https://svc.example.com" ∧
    urlParse L "svc.example.com" = L.Parse "https://svc.example.com" ∧
    urlParse stdLib "svc.example.com" = .ok { Scheme := "https", Host := "svc.example.com" } := by
  refine ⟨?_, ?_, ?_, rfl⟩
  · by_cases h : "://".data <:+: s.data
    · have hc : stringsContains s "://" = true := (stringsContains_iff s "://").2 h
      simp [urlParse, hc, h]
    · have hc : stringsContains s "://" = false := by
        cases hb : stringsContains s "://" with
        | false => rfl
        | true => exact absurd ((stringsContains_iff s "://").1 hb) h
      simp [urlParse, hc, h]
  · have h1 : stringsContains "svc.example.com" "://" = false := by decide
    have h2 : stringsContains "https://svc.example.com" "://" = true := by decide
    simp only [urlParse, h1, h2]
    rfl
  · have h1 : stringsContains "svc.example.com" "://" = false := by decide
    simp only [urlParse, h1]
    rfl

/-! ## Lemmas on headers -/

theorem Header.index_assign_same (h : Header) (key : String) (v : List String) :
    (h.assign key v).index key = some v := by
  induction h with
  | nil => simp [Header.assign, Header.index]
  | cons e rest ih =>
    obtain ⟨k, w⟩ := e
    by_cases hk : k = key
    · simp [Header.assign, Header.index, hk]
    · simp [Header.assign, Header.index, hk, ih]

theorem Header.index_assign_other (h : Header) (key key' : String) (v : List String)
    (hne : key' ≠ key) : (h.assign key v).index key' = h.index key' := by
  induction h with
  | nil => simp [Header.assign, Header.index, Ne.symm hne]
  | cons e rest ih =>
    obtain ⟨k, w⟩ := e
    by_cases hk : k = key
    · subst hk
      simp [Header.assign, Header.index, Ne.symm hne]
    · by_cases hk' : k = key'
      · subst hk'
        simp [Header.assign, Header.index, hk]
      · simp [Header.assign, Header.index, hk, hk', ih]

theorem canonical_HeaderJWT : CanonicalMIMEHeaderKey HeaderJWT = "X-Pomerium-Jwt-Assertion" := by
  decide

theorem canonical_HeaderUserID :
    CanonicalMIMEHeaderKey HeaderUserID = "X-Pomerium-Authenticated-User-Id" := by
  decide

theorem canonical_HeaderEmail :
    CanonicalMIMEHeaderKey HeaderEmail = "X-Pomerium-Authenticated-User-Email" := by
  decide

theorem canonical_Cookie : CanonicalMIMEHeaderKey "Cookie" = "Cookie" := by decide

theorem canonical_ForwardedHost : CanonicalMIMEHeaderKey "X-Forwarded-Host" = "X-Forwarded-Host" := by
  decide

theorem canonical_UserAgent : CanonicalMIMEHeaderKey "User-Agent" = "User-Agent" := by decide

theorem Header.Get_of_index_eq (h h' : Header) (key : String)
    (heq : h'.index (CanonicalMIMEHeaderKey key) = h.index (CanonicalMIMEHeaderKey key)) :
    h'.Get key = h.Get key := by
  simp [Header.Get, heq]

theorem Header.Get_Set_same (h : Header) (key value : String) :
    (h.Set key value).Get key = value := by
  simp [Header.Get, Header.Set, Header.index_assign_same]

theorem deleteUpstreamCookies_index (req : Request) (cookieName key : String)
    (hne : key ≠ "Cookie") :
    (deleteUpstreamCookies req cookieName).Header.index key = req.Header.index key := by
  simp only [deleteUpstreamCookies, Header.Set, canonical_Cookie]
  exact Header.index_assign_other _ _ _ _ hne

theorem deleteUpstreamCookies_Get (req : Request) (cookieName key : String)
    (hne : CanonicalMIMEHeaderKey key ≠ "Cookie") :
    (deleteUpstreamCookies req cookieName).Header.Get key = req.Header.Get key :=
  Header.Get_of_index_eq _ _ _ (deleteUpstreamCookies_index req cookieName _ hne)

/-! ## The upstream request wrapper: signing -/

/-- C1 (amended): when the signing key is empty the handler is built without
signer, and for every inbound request `ServeHTTP` hands to the inner handler
the cookie-scrubbed request, all of whose headers other than `Cookie` are those
of the inbound request: the proxy neither attaches nor removes an
x-pomerium-jwt-assertion header, so the forwarded request carries none exactly
when the inbound request carries none. -/
theorem ServeHTTP_without_signer {σ : Type} (L : Lib) (C : Collab σ) (opts : Options)
    (reverseProxy : ReverseProxy) (from' to' : String) (hkey : opts.SigningKey = "") :
    ∃ th, NewReverseProxyHandler L C opts reverseProxy from' to' = .ok th ∧
      th.handler.signer = none ∧
      ∀ (w : σ) (r : Request),
        th.handler.ServeHTTP w r =
          C.ServeReverseProxy reverseProxy w (deleteUpstreamCookies r opts.CookieName) ∧
        (∀ key, key ≠ "Cookie" →
          (deleteUpstreamCookies r opts.CookieName).Header.index key = r.Header.index key) ∧
        (deleteUpstreamCookies r opts.CookieName).Header.Get HeaderJWT = r.Header.Get HeaderJWT ∧
        (r.Header.index "X-Pomerium-Jwt-Assertion" = none →
          (deleteUpstreamCookies r opts.CookieName).Header.index "X-Pomerium-Jwt-Assertion" = none) := by
  refine ⟨_, by simp [NewReverseProxyHandler, hkey]; rfl, rfl, ?_⟩
  intro w r
  refine ⟨rfl, fun key hne => deleteUpstreamCookies_index r _ key hne, ?_, ?_⟩
  · exact deleteUpstreamCookies_Get r _ _ (by rw [canonical_HeaderJWT]; decide)
  · intro h
    rw [deleteUpstreamCookies_index r _ _ (by decide), h]

/-- C1, witness: the sample configuration has no signing key; a request with
identity headers and no assertion header is forwarded without one. -/
theorem ServeHTTP_without_signer_witness :
    ∃ th, NewReverseProxyHandler stdLib recordingCollab sampleOptions
        (NewReverseProxy { Scheme := "https", Host := "b.internal:8080" })
        "a.example.com" "b.internal:8080" = .ok th ∧
      th.handler.signer = none ∧
      ∀ (w : List Request) (r : Request),
        th.handler.ServeHTTP w r =
          recordingCollab.ServeReverseProxy
            (NewReverseProxy { Scheme := "https", Host := "b.internal:8080" }) w
            (deleteUpstreamCookies r sampleOptions.CookieName) ∧
        (∀ key, key ≠ "Cookie" →
          (deleteUpstreamCookies r sampleOptions.CookieName).Header.index key =
            r.Header.index key) ∧
        (deleteUpstreamCookies r sampleOptions.CookieName).Header.Get HeaderJWT =
          r.Header.Get HeaderJWT ∧
        (r.Header.index "X-Pomerium-Jwt-Assertion" = none →
          (deleteUpstreamCookies r sampleOptions.CookieName).Header.index
            "X-Pomerium-Jwt-Assertion" = none) :=
  ServeHTTP_without_signer stdLib recordingCollab sampleOptions
    (NewReverseProxy { Scheme := "https", Host := "b.internal:8080" })
    "a.example.com" "b.internal:8080" rfl

/-- C1, counterexample: with an empty signing key, a request that arrives with
an x-pomerium-jwt-assertion header of the client's making is handed to the
inner handler with that header. -/
theorem ServeHTTP_forwards_client_assertion :
    sampleOptions.SigningKey = "" ∧
    ∃ th, NewReverseProxyHandler stdLib recordingCollab sampleOptions
        (NewReverseProxy { Scheme := "https", Host := "b.internal:8080" })
        "a.example.com" "b.internal:8080" = .ok th ∧
      th.handler.ServeHTTP []
          { Host := "a.example.com", Header := [("X-Pomerium-Jwt-Assertion", ["forged"])] } =
        [{ Host := "a.example.com",
           Header := [("X-Pomerium-Jwt-Assertion", ["forged"]), ("Cookie", [""])] }] ∧
      Header.Get [("X-Pomerium-Jwt-Assertion", ["forged"]), ("Cookie", [""])] HeaderJWT =
        "forged" := by
  refine ⟨rfl, _, rfl, ?_, ?_⟩ <;> decide

/-- C3 (amended): when a signer is configured and the inbound request carries
neither identity header, `ServeHTTP` signs the pair of empty strings: if signing
fails it invokes the inner handler with the cookie-scrubbed request and no
assertion header of the proxy's, and if signing succeeds with a token it
invokes the inner handler with that token as x-pomerium-jwt-assertion header. -/
theorem ServeHTTP_without_identity_headers {σ : Type} (u : UpstreamProxy σ) (signer : JWTSigner)
    (w : σ) (r : Request) (hsigner : u.signer = some signer)
    (hid : r.Header.index "X-Pomerium-Authenticated-User-Id" = none)
    (hemail : r.Header.index "X-Pomerium-Authenticated-User-Email" = none) :
    (∀ err, signer "" "" = .error err →
      u.ServeHTTP w r = u.handler w (deleteUpstreamCookies r u.cookieName) ∧
      (deleteUpstreamCookies r u.cookieName).Header.index "X-Pomerium-Jwt-Assertion" =
        r.Header.index "X-Pomerium-Jwt-Assertion") ∧
    (∀ jwt, signer "" "" = .ok jwt →
      u.ServeHTTP w r =
        u.handler w { deleteUpstreamCookies r u.cookieName with
          Header := (deleteUpstreamCookies r u.cookieName).Header.Set HeaderJWT jwt } ∧
      ((deleteUpstreamCookies r u.cookieName).Header.Set HeaderJWT jwt).index
        "X-Pomerium-Jwt-Assertion" = some [jwt]) := by
  have hid' : (deleteUpstreamCookies r u.cookieName).Header.Get HeaderUserID = "" := by
    rw [deleteUpstreamCookies_Get r _ _ (by rw [canonical_HeaderUserID]; decide)]
    simp [Header.Get, canonical_HeaderUserID, hid]
  have hemail' : (deleteUpstreamCookies r u.cookieName).Header.Get HeaderEmail = "" := by
    rw [deleteUpstreamCookies_Get r _ _ (by rw [canonical_HeaderEmail]; decide)]
    simp [Header.Get, canonical_HeaderEmail, hemail]
  constructor
  · intro err herr
    refine ⟨?_, deleteUpstreamCookies_index r _ _ (by decide)⟩
    simp [UpstreamProxy.ServeHTTP, UpstreamProxy.signRequest, hsigner, hid', hemail', herr]
  · intro jwt hjwt
    refine ⟨?_, ?_⟩
    · simp [UpstreamProxy.ServeHTTP, UpstreamProxy.signRequest, hsigner, hid', hemail', hjwt]
    · simp [Header.Set, canonical_HeaderJWT, Header.index_assign_same]

/-- C3, witness: the recording upstream with the failing signer, on a request
without headers. -/
theorem ServeHTTP_without_identity_headers_witness :
    (∀ err, failingSigner "" "" = .error err →
      (recordingUpstream (some failingSigner)).ServeHTTP [] { Host := "a.example.com" } =
        (recordingUpstream (some failingSigner)).handler []
          (deleteUpstreamCookies { Host := "a.example.com" } "_pomerium_proxy") ∧
      (deleteUpstreamCookies { Host := "a.example.com" } "_pomerium_proxy").Header.index
        "X-Pomerium-Jwt-Assertion" = Header.index [] "X-Pomerium-Jwt-Assertion") ∧
    (∀ jwt, failingSigner "" "" = .ok jwt →
      (recordingUpstream (some failingSigner)).ServeHTTP [] { Host := "a.example.com" } =
        (recordingUpstream (some failingSigner)).handler []
          { deleteUpstreamCookies { Host := "a.example.com" } "_pomerium_proxy" with
            Header := (deleteUpstreamCookies { Host := "a.example.com" }
              "_pomerium_proxy").Header.Set HeaderJWT jwt } ∧
      ((deleteUpstreamCookies { Host := "a.example.com" } "_pomerium_proxy").Header.Set
        HeaderJWT jwt).index "X-Pomerium-Jwt-Assertion" = some [jwt]) :=
  ServeHTTP_without_identity_headers (recordingUpstream (some failingSigner)) failingSigner []
    { Host := "a.example.com" } rfl rfl rfl

/-- C3, counterexample: a signer is configured, the request carries no header
at all, signing the empty identity succeeds, and the request handed to the
inner handler carries an x-pomerium-jwt-assertion header. -/
theorem ServeHTTP_signs_empty_identity :
    Header.index ([] : Header) "X-Pomerium-Authenticated-User-Id" = none ∧
    Header.index ([] : Header) "X-Pomerium-Authenticated-User-Email" = none ∧
    (recordingUpstream (some sampleSigner)).ServeHTTP [] { Host := "a.example.com" } =
      [{ Host := "a.example.com",
         Header := [("Cookie", [""]), ("X-Pomerium-Jwt-Assertion", ["jwt(,)"])] }] ∧
    Header.Get [("Cookie", [""]), ("X-Pomerium-Jwt-Assertion", ["jwt(,)"])] HeaderJWT =
      "jwt(,)" := by
  refine ⟨rfl, rfl, ?_, ?_⟩ <;> decide

/-- C4: with a signer configured, if `SignJWT` returns an error then
`signRequest` returns the request unchanged and `ServeHTTP` calls the inner
handler once, with the cookie-scrubbed request; if `SignJWT` succeeds with a
token then the x-pomerium-jwt-assertion header of the forwarded request is
exactly that token. -/
theorem ServeHTTP_signing_outcome {σ : Type} (u : UpstreamProxy σ) (signer : JWTSigner)
    (w : σ) (r : Request) (hsigner : u.signer = some signer) :
    (∀ req err, signer (req.Header.Get HeaderUserID) (req.Header.Get HeaderEmail) = .error err →
      u.signRequest req = req) ∧
    (∀ err, signer (r.Header.Get HeaderUserID) (r.Header.Get HeaderEmail) = .error err →
      u.ServeHTTP w r = u.handler w (deleteUpstreamCookies r u.cookieName)) ∧
    (∀ jwt, signer (r.Header.Get HeaderUserID) (r.Header.Get HeaderEmail) = .ok jwt →
      ∃ fwd, u.ServeHTTP w r = u.handler w fwd ∧
        fwd = u.signRequest (deleteUpstreamCookies r u.cookieName) ∧
        fwd.Header.Get HeaderJWT = jwt ∧
        fwd.Header.index "X-Pomerium-Jwt-Assertion" = some [jwt]) := by
  have hid : (deleteUpstreamCookies r u.cookieName).Header.Get HeaderUserID =
      r.Header.Get HeaderUserID :=
    deleteUpstreamCookies_Get r _ _ (by rw [canonical_HeaderUserID]; decide)
  have hemail : (deleteUpstreamCookies r u.cookieName).Header.Get HeaderEmail =
      r.Header.Get HeaderEmail :=
    deleteUpstreamCookies_Get r _ _ (by rw [canonical_HeaderEmail]; decide)
  refine ⟨?_, ?_, ?_⟩
  · intro req err herr
    simp [UpstreamProxy.signRequest, hsigner, herr]
  · intro err herr
    simp [UpstreamProxy.ServeHTTP, UpstreamProxy.signRequest, hsigner, hid, hemail, herr]
  · intro jwt hjwt
    refine ⟨_, rfl, rfl, ?_, ?_⟩
    · simp [UpstreamProxy.signRequest, hsigner, hid, hemail, hjwt, Header.Get_Set_same]
    · simp [UpstreamProxy.signRequest, hsigner, hid, hemail, hjwt, Header.Set,
        canonical_HeaderJWT, Header.index_assign_same]

/-- C4, witness: the recording upstream with the sample signer, on a request
that carries both identity headers and the session cookie. -/
theorem ServeHTTP_signing_outcome_witness :
    (recordingUpstream (some sampleSigner)).ServeHTTP []
      { Host := "a.example.com",
        Header := [("X-Pomerium-Authenticated-User-Id", ["42"]),
                   ("X-Pomerium-Authenticated-User-Email", ["u@example.com"]),
                   ("Cookie", ["_pomerium_proxy=abc; other=xyz"])] } =
      [{ Host := "a.example.com",
         Header := [("X-Pomerium-Authenticated-User-Id", ["42"]),
                    ("X-Pomerium-Authenticated-User-Email", ["u@example.com"]),
                    ("Cookie", ["other=xyz"]),
                    ("X-Pomerium-Jwt-Assertion", ["jwt(42,u@example.com)"])] }] := by
  obtain ⟨fwd, hserve, hfwd, -, -⟩ :=
    (ServeHTTP_signing_outcome (recordingUpstream (some sampleSigner)) sampleSigner []
      { Host := "a.example.com",
        Header := [("X-Pomerium-Authenticated-User-Id", ["42"]),
                   ("X-Pomerium-Authenticated-User-Email", ["u@example.com"]),
                   ("Cookie", ["_pomerium_proxy=abc; other=xyz"])] } rfl).2.2
      "jwt(42,u@example.com)" rfl
  rw [hserve, hfwd]
  decide

/-! ## The reverse-proxy director -/

/-- C10 (amended): for every target URL and every inbound request, the director
of `NewReverseProxy` produces a request whose `Host` is the target's host and
whose X-Forwarded-Host values are those of the inbound request followed by the
inbound host; when the inbound request carries no X-Forwarded-Host header, the
header value is the inbound host. -/
theorem Director_forwarded_host (to' : URL) (req : Request) :
    ((NewReverseProxy to').Director req).Host = to'.Host ∧
    ((NewReverseProxy to').Director req).Header.index "X-Forwarded-Host" =
      some ((req.Header.index "X-Forwarded-Host").getD [] ++ [req.Host]) ∧
    (req.Header.index "X-Forwarded-Host" = none →
      ((NewReverseProxy to').Director req).Header.Get "X-Forwarded-Host" = req.Host) ∧
    ((NewReverseProxy { Scheme := "https", Host := "b.internal:8080" }).Director
        { Host := "a.example.com" }).Header.Get "X-Forwarded-Host" = "a.example.com" ∧
    ((NewReverseProxy { Scheme := "https", Host := "b.internal:8080" }).Director
        { Host := "a.example.com" }).Host = "b.internal:8080" := by
  have hidx : ((NewReverseProxy to').Director req).Header.index "X-Forwarded-Host" =
      some ((req.Header.index "X-Forwarded-Host").getD [] ++ [req.Host]) := by
    simp only [NewReverseProxy, singleHostDirector, Header.Add, canonical_ForwardedHost]
    split
    · exact Header.index_assign_same _ _ _
    · simp only [Header.Set, canonical_UserAgent]
      rw [Header.index_assign_other _ _ _ _ (by decide)]
      exact Header.index_assign_same _ _ _
  refine ⟨rfl, hidx, ?_, by decide, by decide⟩
  intro hnone
  simp [Header.Get, canonical_ForwardedHost, hidx, hnone]

/-- C10, counterexample: an inbound request for `a.example.com` that already
carries `X-Forwarded-Host: evil.example.com` leaves the director with the
client's value first, and that is the value `Header.Get` returns. -/
theorem Director_keeps_client_forwarded_host :
    ((NewReverseProxy { Scheme := "https", Host := "b.internal:8080" }).Director
        { Host := "a.example.com",
          Header := [("X-Forwarded-Host", ["evil.example.com"])] }).Header.index
      "X-Forwarded-Host" = some ["evil.example.com", "a.example.com"] ∧
    ((NewReverseProxy { Scheme := "https", Host := "b.internal:8080" }).Director
        { Host := "a.example.com",
          Header := [("X-Forwarded-Host", ["evil.example.com"])] }).Header.Get
      "X-Forwarded-Host" = "evil.example.com" ∧
    ((NewReverseProxy { Scheme := "https", Host := "b.internal:8080" }).Director
        { Host := "a.example.com",
          Header := [("X-Forwarded-Host", ["evil.example.com"])] }).Header.Get
      "X-Forwarded-Host" ≠ "a.example.com" := by
  refine ⟨?_, ?_, ?_⟩ <;> decide

/-! ## The upstream request wrapper: cookie scrubbing -/

theorem isTokenChar_not_space (c : Char) (h : isTokenChar c = true) : isSpace c = false := by
  simp only [isTokenChar, isSpace, Bool.or_eq_true, Bool.and_eq_true, decide_eq_true_eq,
    List.contains_eq_any_beq, List.any_cons, List.any_nil, beq_iff_eq, Bool.or_false] at h ⊢
  simp only [Bool.or_eq_false_iff, Bool.and_eq_false_iff, decide_eq_false_iff_not, beq_eq_false_iff_ne]
  omega

theorem isTokenChar_ne (c d : Char) (h : isTokenChar c = true) (hd : isTokenChar d = false) :
    c ≠ d := by
  intro hcd
  subst hcd
  rw [h] at hd
  cases hd

theorem validCookieValueByte_not_space (c : Char) (h : validCookieValueByte c = true)
    (hc : c ≠ ' ') : isSpace c = false := by
  have hn : c.toNat ≠ 32 := by
    intro h32
    apply hc
    have : c = Char.ofNat c.toNat := (Char.ofNat_toNat c).symm
    rw [this, h32]
  simp only [validCookieValueByte, Bool.and_eq_true, decide_eq_true_eq, bne_iff_ne] at h
  simp only [isSpace, Bool.or_eq_false_iff, Bool.and_eq_false_iff, decide_eq_false_iff_not,
    beq_eq_false_iff_ne]
  omega

theorem validCookieValueByte_ne (c d : Char) (h : validCookieValueByte c = true)
    (hd : validCookieValueByte d = false) : c ≠ d := by
  intro hcd
  subst hcd
  rw [h] at hd
  cases hd

theorem trimSpace_eq_self (s : List Char) (hhead : ∀ a ∈ s.head?, isSpace a = false)
    (hlast : ∀ a ∈ s.getLast?, isSpace a = false) : trimSpace s = s := by
  have h1 : s.dropWhile isSpace = s := by
    cases s with
    | nil => rfl
    | cons a rest =>
      have := hhead a (by simp)
      simp [List.dropWhile_cons, this]
  have h2 : s.reverse.dropWhile isSpace = s.reverse := by
    cases hr : s.reverse with
    | nil => rfl
    | cons a rest =>
      have hmem : a ∈ s.getLast? := by
        have : s.reverse.head? = some a := by rw [hr]; rfl
        rw [List.head?_reverse] at this
        simp [this]
      have := hlast a hmem
      simp [List.dropWhile_cons, this]
  simp [trimSpace, h1, h2]

theorem splitOn_of_not_mem (sep : Char) (a : List Char) (h : sep ∉ a) : splitOn sep a = [a] := by
  induction a with
  | nil => rfl
  | cons c cs ih =>
    have hc : c ≠ sep := fun e => h (by simp [e])
    have hcs : sep ∉ cs := fun e => h (by simp [e])
    simp [splitOn, hc, ih hcs]

theorem splitOn_append_sep (sep : Char) (a rest : List Char) (h : sep ∉ a) :
    splitOn sep (a ++ sep :: rest) = a :: splitOn sep rest := by
  induction a with
  | nil => simp [splitOn]
  | cons c cs ih =>
    have hc : c ≠ sep := fun e => h (by simp [e])
    have hcs : sep ∉ cs := fun e => h (by simp [e])
    simp [splitOn, hc, ih hcs]

theorem stringsJoin_data_cons (a b : String) (rest : List String) (sep : String) :
    (stringsJoin (a :: b :: rest) sep).data =
      a.data ++ sep.data ++ (stringsJoin (b :: rest) sep).data := by
  simp [stringsJoin, String.data_append]

theorem splitOn_stringsJoin (ss : List String) (hne : ss ≠ [])
    (hsep : ∀ s ∈ ss, ';' ∉ s.data) :
    splitOn ';' (stringsJoin ss ";").data = ss.map String.data := by
  induction ss with
  | nil => exact absurd rfl hne
  | cons a rest ih =>
    cases rest with
    | nil => simpa [stringsJoin] using splitOn_of_not_mem ';' a.data (hsep a (by simp))
    | cons b rest' =>
      rw [stringsJoin_data_cons]
      have : (";" : String).data = [';'] := rfl
      rw [this, List.append_assoc, List.singleton_append,
        splitOn_append_sep ';' _ _ (hsep a (by simp)),
        ih (by simp) (fun s hs => hsep s (List.mem_cons_of_mem _ hs))]
      rfl

theorem stringsJoin_head (ss : List String) (a : String) (ha : a.data ≠ []) (sep : String) :
    (stringsJoin (a :: ss) sep).data.head? = a.data.head? := by
  cases ss with
  | nil => rfl
  | cons b rest =>
    rw [stringsJoin_data_cons, List.append_assoc, List.head?_append]
    cases h : a.data with
    | nil => exact absurd h ha
    | cons c cs => rfl

theorem stringsJoin_getLast (ss : List String) (hne : ss ≠ [])
    (hparts : ∀ s ∈ ss, s.data ≠ []) (sep : String) :
    ∃ s ∈ ss, (stringsJoin ss sep).data.getLast? = s.data.getLast? := by
  induction ss with
  | nil => exact absurd rfl hne
  | cons a rest ih =>
    cases rest with
    | nil => exact ⟨a, by simp, rfl⟩
    | cons b rest' =>
      obtain ⟨s, hs, hlast⟩ := ih (by simp) (fun s hs => hparts s (List.mem_cons_of_mem _ hs))
      refine ⟨s, List.mem_cons_of_mem _ hs, ?_⟩
      rw [stringsJoin_data_cons, List.getLast?_append, hlast]
      have hsne : s.data ≠ [] := hparts s (List.mem_cons_of_mem _ hs)
      cases hd : s.data with
      | nil => exact absurd hd hsne
      | cons c cs =>
        have : (c :: cs).getLast? = some ((c :: cs).getLast (by simp)) :=
          List.getLast?_eq_getLast _ _
        rw [this]
        rfl


theorem nameValid_iff (n : List Char) :
    isCookieNameValid n = true ↔ n ≠ [] ∧ ∀ x ∈ n, isTokenChar x = true := by
  by_cases h : n = []
  · simp [isCookieNameValid, h]
  · simp [isCookieNameValid, h]

theorem sanitizeCookieName_valid (n : List Char) (h : ∀ x ∈ n, isTokenChar x = true) :
    sanitizeCookieName n = n := by
  unfold sanitizeCookieName
  conv_rhs => rw [← List.map_id n]
  apply List.map_congr_left
  intro x hx
  have h1 : x ≠ '\n' := isTokenChar_ne x '\n' (h x hx) (by decide)
  have h2 : x ≠ '\r' := isTokenChar_ne x '\r' (h x hx) (by decide)
  simp [h1, h2]

theorem sanitizeCookieValue_valid (v : List Char) (hv : ∀ x ∈ v, validCookieValueByte x = true) :
    sanitizeCookieValue v =
      if v = [] then [] else if ' ' ∈ v ∨ ',' ∈ v then '"' :: (v ++ ['"']) else v := by
  have hf : v.filter validCookieValueByte = v := List.filter_eq_self.2 hv
  unfold sanitizeCookieValue
  simp only [hf]
  by_cases h0 : v = []
  · simp [h0]
  · have hl : v.length ≠ 0 := by simpa using h0
    simp [h0, hl]

theorem parseCookieValue_sanitize (v : List Char) (hv : ∀ x ∈ v, validCookieValueByte x = true) :
    parseCookieValue (sanitizeCookieValue v) true = some v := by
  have hall : v.all validCookieValueByte = true := List.all_eq_true.2 hv
  rw [sanitizeCookieValue_valid v hv]
  by_cases h0 : v = []
  · subst h0
    simp [parseCookieValue]
  · simp only [h0, if_false]
    by_cases hq : ' ' ∈ v ∨ ',' ∈ v
    · simp only [hq, if_true]
      have hlast : ('"' :: (v ++ ['"'])).getLast? = some '"' := by
        rw [← List.cons_append, List.getLast?_concat]
      simp [parseCookieValue, hlast, hall]
    · simp only [hq, if_false]
      obtain ⟨a, rest, rfl⟩ := List.exists_cons_of_ne_nil h0
      have ha : a ≠ '"' := validCookieValueByte_ne a '"' (hv a (by simp)) (by decide)
      have : ((a :: rest).head? == some '"') = false := by simp [ha]
      simp only [parseCookieValue, this, Bool.and_false, Bool.false_and, Bool.false_eq_true, if_false, hall,
        if_true]

theorem cookieString_data (c : Cookie) (hwf : c.WellFormed) :
    c.String.data = c.Name.data ++ '=' :: sanitizeCookieValue c.Value.data := by
  obtain ⟨hn, _⟩ := hwf
  have hn' := (nameValid_iff _).1 hn
  simp [Cookie.String, hn, sanitizeCookieName_valid _ hn'.2]

theorem readCookiePart_cookieString (c : Cookie) (hwf : c.WellFormed)
    (htrim : trimSpace c.String.data = c.String.data) :
    readCookiePart "" c.String.data = some c := by
  have hdata := cookieString_data c hwf
  obtain ⟨hn, hv⟩ := hwf
  have hn' := (nameValid_iff _).1 hn
  have hv' : ∀ x ∈ c.Value.data, validCookieValueByte x = true := List.all_eq_true.1 hv
  have heq : '=' ∉ c.Name.data := fun hmem =>
    isTokenChar_ne '=' '=' (hn'.2 _ hmem) (by decide) rfl
  have hidx : (c.Name.data ++ '=' :: sanitizeCookieValue c.Value.data).indexOf '=' =
      c.Name.data.length := by
    rw [List.indexOf_append_of_not_mem heq, List.indexOf_cons_self]
    rfl
  have hdrop : List.drop (c.Name.length + 1)
      (c.Name.data ++ '=' :: sanitizeCookieValue c.Value.data) =
      sanitizeCookieValue c.Value.data := by
    show List.drop (c.Name.data.length + 1) _ = _
    rw [List.drop_append]
    rfl
  unfold readCookiePart
  simp only [htrim]
  rw [hdata, hidx]
  simp [hn, hdrop, parseCookieValue_sanitize _ hv']


theorem sanitizeCookieValue_props (v : List Char) (hv : ∀ x ∈ v, validCookieValueByte x = true) :
    ';' ∉ sanitizeCookieValue v ∧
    ∀ a ∈ ('=' :: sanitizeCookieValue v).getLast?, isSpace a = false := by
  have hsemi : ';' ∉ v := fun hmem =>
    validCookieValueByte_ne ';' ';' (hv _ hmem) (by decide) rfl
  rw [sanitizeCookieValue_valid v hv]
  by_cases h0 : v = []
  · subst h0
    simp only [if_true]
    refine ⟨by simp, ?_⟩
    intro a ha
    have : a = '=' := by simpa using ha.symm
    subst this
    decide
  · simp only [h0, if_false]
    by_cases hq : ' ' ∈ v ∨ ',' ∈ v
    · simp only [hq, if_true]
      refine ⟨?_, ?_⟩
      · simp only [List.mem_cons, List.mem_append, List.mem_singleton, not_or]
        exact ⟨by decide, hsemi, by decide⟩
      · intro a ha
        have hlast : ('=' :: '"' :: (v ++ ['"'])).getLast? = some '"' := by
          rw [← List.cons_append, ← List.cons_append, List.getLast?_concat]
        rw [hlast] at ha
        have : a = '"' := by simpa using ha.symm
        subst this
        decide
    · simp only [hq, if_false]
      refine ⟨hsemi, ?_⟩
      intro a ha
      have hmem : a ∈ v := by
        obtain ⟨b, rest, rfl⟩ := List.exists_cons_of_ne_nil h0
        have h1 : ('=' :: b :: rest).getLast? = (b :: rest).getLast? := by
          simp [List.getLast?_cons_cons]
        rw [h1] at ha
        exact List.mem_of_mem_getLast? ha
      have hsp : a ≠ ' ' := fun e => hq (Or.inl (e ▸ hmem))
      exact validCookieValueByte_not_space a (hv a hmem) hsp

theorem cookieString_props (c : Cookie) (hwf : c.WellFormed) :
    ';' ∉ c.String.data ∧ c.String.data ≠ [] ∧
    (∀ a ∈ c.String.data.head?, isSpace a = false) ∧
    (∀ a ∈ c.String.data.getLast?, isSpace a = false) := by
  have hdata := cookieString_data c hwf
  obtain ⟨hn, hv⟩ := hwf
  obtain ⟨hne, htok⟩ := (nameValid_iff _).1 hn
  have hv' : ∀ x ∈ c.Value.data, validCookieValueByte x = true := List.all_eq_true.1 hv
  obtain ⟨hsemi, hlast⟩ := sanitizeCookieValue_props _ hv'
  rw [hdata]
  refine ⟨?_, by simp, ?_, ?_⟩
  · simp only [List.mem_append, List.mem_cons, not_or]
    exact ⟨fun hmem => isTokenChar_ne ';' ';' (htok _ hmem) (by decide) rfl, by decide, hsemi⟩
  · intro a ha
    obtain ⟨b, rest, hb⟩ := List.exists_cons_of_ne_nil hne
    rw [hb] at ha
    have : a = b := by simpa using ha.symm
    subst this
    exact isTokenChar_not_space a (htok a (by rw [hb]; simp))
  · intro a ha
    rw [List.getLast?_append] at ha
    apply hlast a
    cases hl : ('=' :: sanitizeCookieValue c.Value.data).getLast? with
    | none => simp at hl
    | some b =>
      rw [hl] at ha
      simpa using ha

theorem readCookieLine_stringsJoin (cs : List Cookie) (hwf : ∀ c ∈ cs, c.WellFormed) :
    readCookieLine "" (stringsJoin (cs.map Cookie.String) ";") = cs := by
  cases cs with
  | nil => decide
  | cons c rest =>
    have hprops : ∀ s ∈ (c :: rest).map Cookie.String,
        ';' ∉ s.data ∧ s.data ≠ [] ∧ (∀ a ∈ s.data.head?, isSpace a = false) ∧
          (∀ a ∈ s.data.getLast?, isSpace a = false) := by
      intro s hs
      obtain ⟨k, hk, rfl⟩ := List.mem_map.1 hs
      exact cookieString_props k (hwf k hk)
    have htrim : trimSpace (stringsJoin ((c :: rest).map Cookie.String) ";").data =
        (stringsJoin ((c :: rest).map Cookie.String) ";").data := by
      apply trimSpace_eq_self
      · rw [List.map_cons, stringsJoin_head _ _ (hprops _ (by simp)).2.1]
        exact (hprops _ (by simp)).2.2.1
      · obtain ⟨s, hs, hlast⟩ := stringsJoin_getLast ((c :: rest).map Cookie.String) (by simp)
          (fun s hs => (hprops s hs).2.1) ";"
        rw [hlast]
        exact (hprops s hs).2.2.2
    have hsplit := splitOn_stringsJoin ((c :: rest).map Cookie.String) (by simp)
      (fun s hs => (hprops s hs).1)
    have hparts : ∀ ks : List Cookie, (∀ k ∈ ks, k.WellFormed) →
        ((ks.map Cookie.String).map String.data).filterMap (readCookiePart "") = ks := by
      intro ks
      induction ks with
      | nil => intro _; rfl
      | cons k ks ih =>
        intro hks
        have hk := hks k (by simp)
        have hp := cookieString_props k hk
        have hread := readCookiePart_cookieString k hk (trimSpace_eq_self _ hp.2.2.1 hp.2.2.2)
        simp only [List.map_cons, List.filterMap_cons, hread]
        rw [ih (fun k' hk' => hks k' (List.mem_cons_of_mem _ hk'))]
    unfold readCookieLine
    simp only [htrim, hsplit]
    have hhead : ((c :: rest).map Cookie.String |>.map String.data).head? ≠ some [] := by
      simp only [List.map_cons, List.head?_cons, ne_eq, Option.some.injEq]
      exact (hprops _ (by simp)).2.1
    simp only [hhead, and_false, if_false]
    exact hparts _ hwf


theorem parseCookieValue_valid (raw v : List Char) (q : Bool)
    (h : parseCookieValue raw q = some v) : v.all validCookieValueByte = true := by
  simp only [parseCookieValue] at h
  by_cases hall : (if (q && decide (raw.length > 1) && raw.head? == some '"' &&
      raw.getLast? == some '"') = true then (raw.drop 1).dropLast else raw).all
        validCookieValueByte = true
  · rw [if_pos hall] at h
    cases h
    exact hall
  · rw [if_neg hall] at h
    cases h

theorem readCookiePart_wellFormed (filter : String) (part : List Char) (c : Cookie)
    (h : readCookiePart filter part = some c) : c.WellFormed := by
  simp only [readCookiePart] at h
  by_cases h0 : (trimSpace part).length = 0
  · rw [if_pos h0] at h
    cases h
  · rw [if_neg h0] at h
    generalize (if (trimSpace part).indexOf '=' < (trimSpace part).length then
      (trimSpace part).take ((trimSpace part).indexOf '=') else trimSpace part) = name at h
    generalize (if (trimSpace part).indexOf '=' < (trimSpace part).length then
      (trimSpace part).drop ((trimSpace part).indexOf '=' + 1) else []) = val at h
    by_cases hname : isCookieNameValid name = true
    · simp only [hname, Bool.not_true, Bool.false_eq_true, if_false] at h
      by_cases hf : (decide (filter ≠ "") && decide (filter ≠ String.mk name)) = true
      · rw [if_pos hf] at h
        cases h
      · rw [if_neg hf] at h
        cases hp : parseCookieValue val true with
        | none =>
          rw [hp] at h
          cases h
        | some v =>
          rw [hp] at h
          cases h
          exact ⟨hname, parseCookieValue_valid _ _ _ hp⟩
    · simp only [hname, Bool.not_false, if_true] at h
      cases h

theorem readCookies_wellFormed (h : Header) (filter : String) :
    ∀ c ∈ readCookies h filter, c.WellFormed := by
  intro c hc
  unfold readCookies at hc
  split at hc
  · cases hc
  · rename_i lines _
    obtain ⟨cs, hcs, hmem⟩ := List.mem_flatten.1 hc
    obtain ⟨line, _, rfl⟩ := List.mem_map.1 hcs
    unfold readCookieLine at hmem
    simp only at hmem
    split at hmem
    · cases hmem
    · obtain ⟨part, _, hpart⟩ := List.mem_filterMap.1 hmem
      exact readCookiePart_wellFormed filter part c hpart

/-- C2: after `deleteUpstreamCookies(req, c)` the `Cookie` header is the single
value made of the serializations of the request's cookies whose name is not `c`,
in their order, joined with ";"; the cookies of the resulting request are
exactly the original cookies whose name is not `c`, with their names and
values, so that none is named `c`. For the cookies `_pomerium_proxy=abc` and
`other=xyz` and the name `_pomerium_proxy` the header is `other=xyz`. -/
theorem deleteUpstreamCookies_cookies (req : Request) (c : String) :
    (deleteUpstreamCookies req c).Header.index "Cookie" =
      some [stringsJoin ((req.Cookies.filter (fun k => k.Name ≠ c)).map Cookie.String) ";"] ∧
    (deleteUpstreamCookies req c).Header.Get "Cookie" =
      stringsJoin ((req.Cookies.filter (fun k => k.Name ≠ c)).map Cookie.String) ";" ∧
    (deleteUpstreamCookies req c).Cookies = req.Cookies.filter (fun k => k.Name ≠ c) ∧
    (∀ k ∈ (deleteUpstreamCookies req c).Cookies, k.Name ≠ c) ∧
    (deleteUpstreamCookies { Header := [("Cookie", ["_pomerium_proxy=abc; other=xyz"])] }
      "_pomerium_proxy").Header.Get "Cookie" = "other=xyz" ∧
    stringsContains "other=xyz" "_pomerium_proxy" = false := by
  have hidx : (deleteUpstreamCookies req c).Header.index "Cookie" =
      some [stringsJoin ((req.Cookies.filter (fun k => k.Name ≠ c)).map Cookie.String) ";"] := by
    simp only [deleteUpstreamCookies, Header.Set, canonical_Cookie]
    exact Header.index_assign_same _ _ _
  have hcookies : (deleteUpstreamCookies req c).Cookies =
      req.Cookies.filter (fun k => k.Name ≠ c) := by
    have hwf : ∀ k ∈ req.Cookies.filter (fun k => k.Name ≠ c), k.WellFormed :=
      fun k hk => readCookies_wellFormed req.Header "" k (List.mem_of_mem_filter hk)
    simp only [Request.Cookies, readCookies, hidx, List.map_cons, List.map_nil,
      List.flatten_cons, List.flatten_nil, List.append_nil] at hwf ⊢
    exact readCookieLine_stringsJoin _ hwf
  refine ⟨hidx, ?_, hcookies, ?_, by decide, by decide⟩
  · simp [Header.Get, canonical_Cookie, hidx]
  · intro k hk
    rw [hcookies] at hk
    simpa using (List.mem_filter.1 hk).2

/-! ## Construction after validation -/

theorem Validate_eq_none (L : Lib) (o : Options) (h : Validate L o = none) :
    validateRoutes L o.Routes = none ∧ validateSettings L o = none := by
  unfold Validate at h
  by_cases hlen : o.Routes.length = 0
  · rw [if_pos hlen] at h
    cases h
  · rw [if_neg hlen] at h
    cases hr : validateRoutes L o.Routes with
    | some err =>
      rw [hr] at h
      cases h
    | none =>
      rw [hr] at h
      exact ⟨rfl, h⟩

theorem validateSettings_eq_none (L : Lib) (o : Options) (h : validateSettings L o = none) :
    (∃ decoded, L.DecodeString o.CookieSecret = (decoded, none) ∧ decoded.length = 32) ∧
    (o.SigningKey ≠ "" → ∃ key, L.DecodeString o.SigningKey = (key, none)) := by
  unfold validateSettings at h
  cases hu : o.AuthenticateServiceURL with
  | none =>
    rw [hu] at h
    cases h
  | some u =>
    rw [hu] at h
    simp only at h
    by_cases hs : u.Scheme ≠ "https"
    · rw [if_pos hs] at h
      cases h
    · rw [if_neg hs] at h
      by_cases hc : o.CookieSecret = ""
      · rw [if_pos hc] at h
        cases h
      · rw [if_neg hc] at h
        by_cases hk : o.SharedKey = ""
        · rw [if_pos hk] at h
          cases h
        · rw [if_neg hk] at h
          cases hd : L.DecodeString o.CookieSecret with
          | mk decoded err =>
            rw [hd] at h
            cases err with
            | some err => cases h
            | none =>
              simp only at h
              by_cases hl : decoded.length ≠ 32
              · rw [if_pos hl] at h
                cases h
              · rw [if_neg hl] at h
                refine ⟨⟨decoded, rfl, not_not.mp hl⟩, ?_⟩
                intro hne
                have hlen : o.SigningKey.length ≠ 0 := by
                  intro h0
                  exact hne (String.ext (List.length_eq_zero.mp h0))
                rw [if_pos hlen] at h
                cases hd2 : L.DecodeString o.SigningKey with
                | mk key err2 =>
                  rw [hd2] at h
                  cases err2 with
                  | some e => cases h
                  | none => exact ⟨key, rfl⟩

theorem newRoutes_not_panicked {σ : Type} (L : Lib) (C : Collab σ) (opts : Options)
    (routes : List (String × String))
    (hparse : ∀ e ∈ routes, (∃ a, urlParse L e.1 = .ok a) ∧ (∃ b, urlParse L e.2 = .ok b)) :
    ∀ (p : Proxy σ C) (calls : List Call),
      (newRoutes L C opts routes p calls).2 ≠ Outcome.panicked := by
  induction routes with
  | nil =>
    intro p calls h
    cases h
  | cons e rest ih =>
    intro p calls
    obtain ⟨k, v⟩ := e
    obtain ⟨⟨a, ha⟩, ⟨b, hb⟩⟩ := hparse (k, v) (by simp)
    have ha' : urlParse L k = .ok a := ha
    have hb' : urlParse L v = .ok b := hb
    simp only [newRoutes, ha', hb']
    cases hh : NewReverseProxyHandler L C opts (NewReverseProxy b) a.Host b.Host with
    | error err =>
      intro h
      cases h
    | ok handler =>
      exact ih (fun e he => hparse e (List.mem_cons_of_mem _ he)) _ _

theorem NewReverseProxyHandler_error {σ : Type} (L : Lib) (C : Collab σ) (opts : Options)
    (reverseProxy : ReverseProxy) (from' to' err : String) (key : List Nat)
    (hkey : L.DecodeString opts.SigningKey = (key, none))
    (h : NewReverseProxyHandler L C opts reverseProxy from' to' = .error err) :
    C.NewES256Signer key from' = .error err := by
  unfold NewReverseProxyHandler at h
  simp only at h
  by_cases hlen : opts.SigningKey.length ≠ 0
  · rw [if_pos hlen, hkey] at h
    simp only at h
    cases hs : C.NewES256Signer key from' with
    | error e =>
      rw [hs] at h
      simp only [Except.error.injEq] at h
      rw [h]
    | ok s =>
      rw [hs] at h
      cases h
  · rw [if_neg hlen] at h
    cases h


/-- C11: whenever `Validate` returns nil, the errors that `New` discards cannot
occur: decoding the cookie secret succeeds and yields exactly 32 bytes; for
every entry of `Routes` both `urlParse` calls succeed, so that `fromURL` and
`toURL` are non-nil where `New` reads their `Host` and the route loop does not
panic, in whatever order it visits the entries; and if the signing key is
non-empty its decoding succeeds, so that an error of `NewReverseProxyHandler`
can only be the error of `NewES256Signer`. -/
theorem New_discarded_errors {σ : Type} (L : Lib) (C : Collab σ) (o : Options)
    (hvalid : Validate L o = none) :
    (∃ decodedSecret, L.DecodeString o.CookieSecret = (decodedSecret, none) ∧
      decodedSecret.length = 32) ∧
    (∀ e ∈ o.Routes,
      (∃ fromURL, urlParse L e.1 = .ok fromURL) ∧ (∃ toURL, urlParse L e.2 = .ok toURL)) ∧
    (o.SigningKey ≠ "" → ∃ key, L.DecodeString o.SigningKey = (key, none)) ∧
    (∀ (reverseProxy : ReverseProxy) (from' to' err : String), o.SigningKey ≠ "" →
      NewReverseProxyHandler L C o reverseProxy from' to' = .error err →
      ∃ key, L.DecodeString o.SigningKey = (key, none) ∧
        C.NewES256Signer key from' = .error err) ∧
    (New L C (some o)).2 ≠ Outcome.panicked ∧
    (∀ (routes : List (String × String)) (p : Proxy σ C) (calls : List Call),
      routes.Perm o.Routes → (newRoutes L C o routes p calls).2 ≠ Outcome.panicked) := by
  obtain ⟨hroutes, hsettings⟩ := Validate_eq_none L o hvalid
  obtain ⟨hsecret, hsigning⟩ := validateSettings_eq_none L o hsettings
  have hparse := (validateRoutes_eq_none L o.Routes).1 hroutes
  refine ⟨hsecret, hparse, hsigning, ?_, ?_, ?_⟩
  · intro reverseProxy from' to' err hne herr
    obtain ⟨key, hkey⟩ := hsigning hne
    exact ⟨key, hkey, NewReverseProxyHandler_error L C o reverseProxy from' to' err key hkey herr⟩
  · simp only [New, hvalid]
    cases C.NewCipher (L.DecodeString o.CookieSecret).1 with
    | error err =>
      intro h
      cases h
    | ok cipher =>
      simp only
      cases C.NewCookieStore o.CookieName (L.DecodeString o.CookieSecret).1 o.CookieDomain
          o.CookieHTTPOnly o.CookieExpire with
      | error err =>
        intro h
        cases h
      | ok cookieStore => exact newRoutes_not_panicked L C o o.Routes hparse _ _
  · intro routes p calls hperm
    exact newRoutes_not_panicked L C o routes (fun e he => hparse e (hperm.subset he)) p calls

/-- C11, witness: the sample configuration with the signing key `AAAA`
validates, and `New` builds the proxy from it. -/
theorem New_discarded_errors_witness :
    (∃ decodedSecret,
      stdLib.DecodeString "AAECAwQFBgcICQoLDA0ODxAREhMUFRYXGBkaGxwdHh8=" = (decodedSecret, none) ∧
      decodedSecret.length = 32) ∧
    (∃ key, stdLib.DecodeString "AAAA" = (key, none)) ∧
    (New stdLib recordingCollab (some { sampleOptions with SigningKey := "AAAA" })).2 ≠
      Outcome.panicked :=
  have h := New_discarded_errors stdLib recordingCollab
    { sampleOptions with SigningKey := "AAAA" } (by decide)
  ⟨h.1, h.2.2.1 (by decide), h.2.2.2.2.1⟩

end Pomerium
